import Mathlib

/-!
Verification of the aircast-sdk messaging runtime (`pkg/message`).

Shallow embedding of the Go messaging runtime: the envelope data model
(`types.go`), the frame parser (`parser.go`, `UnmarshalMessage`), the
endpoint client (`client.go`: `Send`, `Close`, `Listen`), the action
router (`router.go`: `Use`, `Handle`) and the queued resend layer
(`queued_client.go`: `Send`, `queueMessage`, `flushQueue`,
`isCriticalMessage`).

JSON frames are modelled at the level of decoded JSON values: a `Frame`
is the generic decoded object restricted to the envelope keys (unknown
keys are ignored by the Go code, so they carry no information), and each
key holds an optional `Json` value (`none` = key absent).  Go's
`map[string]any` maps both an absent key and a JSON `null` value to a
`nil` interface; the model keeps the two apart in `Frame` and collapses
them where the Go code does (`isNilJson`).
-/

namespace Aircast

/-- Decoded JSON values (the `any` values living in Go's generic
`map[string]any` after `json.Decode`). -/
inductive Json where
  | null : Json
  | bool (b : Bool) : Json
  | num (q : Int) : Json
  | str (s : String) : Json
  | arr (elems : List Json) : Json
  | obj (fields : List (String × Json)) : Json
  deriving Repr

/-- Embedding of `v == nil` on a `map[string]any` lookup in Go: true when the key is
absent or its value is JSON `null` (both decode to a nil interface). -/
def isNilJson : Option Json → Bool
  | none => true
  | some Json.null => true
  | some _ => false

/-- The envelope keys of a decoded JSON frame.  `none` means the key is
absent from the object. -/
structure Frame where
  type : Option Json := none
  action : Option Json := none
  source : Option Json := none
  request_id : Option Json := none
  reply_to : Option Json := none
  session_id : Option Json := none
  payload : Option Json := none
  error : Option Json := none
  deriving Repr

/-- Embedding of `RequestMessage` (types.go). `Payload` is Go's `interface{}`,
modelled as the decoded JSON value when present. -/
structure RequestMessage where
  Action : String
  Payload : Option Json := none
  Source : String
  RequestID : String
  SessionID : String := ""
  deriving Repr

/-- Embedding of `ResponseMessage` (types.go). -/
structure ResponseMessage where
  Action : String
  Payload : Option Json := none
  Source : String
  SessionID : String := ""
  ReplyTo : String
  deriving Repr

/-- Embedding of `ErrorResponse` (types.go): the nested `error` object. -/
structure ErrorResponse where
  Code : String
  Message : String
  Source : String := ""
  Details : Option Json := none
  Level : String := ""
  deriving Repr

/-- Embedding of `ErrorMessage` (types.go). -/
structure ErrorMessage where
  Action : String
  Source : String
  SessionID : String := ""
  Error : ErrorResponse
  ReplyTo : String
  deriving Repr

/-- Embedding of `EventMessage` (types.go). -/
structure EventMessage where
  Action : String
  Payload : Option Json := none
  Source : String
  SessionID : String := ""
  deriving Repr

/-- The `any` returned by `UnmarshalMessage` / accepted by `Send`: one of
the four envelope structs. -/
inductive Message where
  | request (m : RequestMessage) : Message
  | response (m : ResponseMessage) : Message
  | error (m : ErrorMessage) : Message
  | event (m : EventMessage) : Message
  deriving Repr

/-! ## Parser (`parser.go`, `UnmarshalMessage`)

`UnmarshalMessage` first decodes the frame into a generic map (modelled
by `Frame`), reads the discriminant, performs the nil-presence checks,
and then runs `json.Unmarshal` into the kind-specific struct.  The
second unmarshal is modelled field by field: a string-typed struct field
decodes from an absent key or JSON `null` as the zero string, from a
JSON string as that string, and fails the whole unmarshal on any other
JSON value; an `interface{}` field takes the raw value (`null` ↦ nil).
-/

/-- Errors of the parse path, one constructor per distinct Go error. -/
inductive ParseError where
  | decodeFailed : ParseError
  | invalidTypeField : ParseError
  | missingAction : ParseError
  | missingRequestID : ParseError
  | missingReplyTo : ParseError
  | missingError : ParseError
  | unknownType (t : String) : ParseError
  | unmarshalFailed : ParseError
  deriving Repr, DecidableEq

/-- Embedding of `json.Unmarshal` of a JSON value into a Go `string` field:
absent / `null` leave the zero value, a string is taken verbatim,
anything else is a type error. -/
def decodeStringField : Option Json → Except ParseError String
  | none => .ok ""
  | some Json.null => .ok ""
  | some (Json.str s) => .ok s
  | some _ => .error .unmarshalFailed

/-- Embedding of `json.Unmarshal` of a JSON value into a Go `interface{}` field:
`null` (and absence) decode to the nil interface. -/
def decodeAnyField : Option Json → Option Json
  | none => none
  | some Json.null => none
  | some v => some v

/-- Object-field lookup inside the nested `error` value. -/
def jsonField (fields : List (String × Json)) (key : String) : Option Json :=
  (fields.find? (fun kv => kv.fst == key)).map Prod.snd

/-- Embedding of `json.Unmarshal` of the `error` key's value into `ErrorResponse`. -/
def decodeErrorResponse : Option Json → Except ParseError ErrorResponse
  | none => .ok { Code := "", Message := "", Source := "", Details := none, Level := "" }
  | some Json.null => .ok { Code := "", Message := "", Source := "", Details := none, Level := "" }
  | some (Json.obj fields) => do
      let code ← decodeStringField (jsonField fields "code")
      let msg ← decodeStringField (jsonField fields "message")
      let src ← decodeStringField (jsonField fields "source")
      let lvl ← decodeStringField (jsonField fields "level")
      .ok { Code := code, Message := msg, Source := src,
            Details := decodeAnyField (jsonField fields "details"), Level := lvl }
  | some _ => .error .unmarshalFailed

/-- Embedding of `json.Unmarshal(data, &req)` for `RequestMessage`. -/
def decodeRequestMessage (f : Frame) : Except ParseError RequestMessage := do
  let action ← decodeStringField f.action
  let source ← decodeStringField f.source
  let reqId ← decodeStringField f.request_id
  let sess ← decodeStringField f.session_id
  .ok { Action := action, Payload := decodeAnyField f.payload, Source := source,
        RequestID := reqId, SessionID := sess }

/-- Embedding of `json.Unmarshal(data, &res)` for `ResponseMessage`. -/
def decodeResponseMessage (f : Frame) : Except ParseError ResponseMessage := do
  let action ← decodeStringField f.action
  let source ← decodeStringField f.source
  let sess ← decodeStringField f.session_id
  let replyTo ← decodeStringField f.reply_to
  .ok { Action := action, Payload := decodeAnyField f.payload, Source := source,
        SessionID := sess, ReplyTo := replyTo }

/-- Embedding of `json.Unmarshal(data, &errMsg)` for `ErrorMessage`. -/
def decodeErrorMessage (f : Frame) : Except ParseError ErrorMessage := do
  let action ← decodeStringField f.action
  let source ← decodeStringField f.source
  let sess ← decodeStringField f.session_id
  let errObj ← decodeErrorResponse f.error
  let replyTo ← decodeStringField f.reply_to
  .ok { Action := action, Source := source, SessionID := sess,
        Error := errObj, ReplyTo := replyTo }

/-- Embedding of `json.Unmarshal(data, &event)` for `EventMessage`. -/
def decodeEventMessage (f : Frame) : Except ParseError EventMessage := do
  let action ← decodeStringField f.action
  let source ← decodeStringField f.source
  let sess ← decodeStringField f.session_id
  .ok { Action := action, Payload := decodeAnyField f.payload, Source := source,
        SessionID := sess }

/-- Embedding of `UnmarshalMessage` (parser.go, lines 18–90), applied to a frame that
already decoded to a JSON object.  Mirrors the Go control flow exactly:
type assertion on `type`, nil check on `action`, then the per-kind nil
checks and the second unmarshal. -/
def UnmarshalMessage (f : Frame) : Except ParseError Message :=
  match f.type with
  | some (Json.str messageType) =>
      if isNilJson f.action then .error .missingAction
      else
        match messageType with
        | "request" =>
            if isNilJson f.request_id then .error .missingRequestID
            else (decodeRequestMessage f).map Message.request
        | "response" =>
            if isNilJson f.reply_to then .error .missingReplyTo
            else (decodeResponseMessage f).map Message.response
        | "error" =>
            if isNilJson f.reply_to then .error .missingReplyTo
            else if isNilJson f.error then .error .missingError
            else (decodeErrorMessage f).map Message.error
        | "event" => (decodeEventMessage f).map Message.event
        | t => .error (.unknownType t)
  | _ => .error .invalidTypeField

/-! ## Endpoint client (`client.go`)

`client.Send` stamps the optional session id, wraps the struct in an
anonymous envelope struct adding the `type` tag, and `json.Marshal`s it.
Marshalling is modelled as producing a `Frame`: `omitempty` fields
(`payload`, `session_id`, `details`) are absent when their Go value is
empty (nil interface / empty string); all other fields are always
emitted. -/

/-- Embedding of `sessionId != nil` branch of `client.Send` (client.go, lines 152–167):
stamp the session id onto the message. -/
def stampSession (msg : Message) (sessionId : Option String) : Message :=
  match sessionId with
  | none => msg
  | some sid =>
      match msg with
      | .request m => .request { m with SessionID := sid }
      | .response m => .response { m with SessionID := sid }
      | .error m => .error { m with SessionID := sid }
      | .event m => .event { m with SessionID := sid }

/-- Embedding of `json.Marshal` of a `string` field tagged `omitempty`. -/
def encodeOmitemptyString (s : String) : Option Json :=
  if s = "" then none else some (Json.str s)

/-- Embedding of `json.Marshal` of the nested `ErrorResponse` struct. -/
def encodeErrorResponse (e : ErrorResponse) : Json :=
  Json.obj ([("code", Json.str e.Code), ("message", Json.str e.Message),
             ("source", Json.str e.Source)]
            ++ (match e.Details with
                | none => []
                | some d => [("details", d)])
            ++ [("level", Json.str e.Level)])

/-- Embedding of `json.Marshal` of the envelope struct produced by `client.Send`
(client.go, lines 172–212): the four anonymous wrapper structs with the
added `type` tag, one `Frame` per kind. -/
def encodeFrame : Message → Frame
  | .request m =>
      { type := some (Json.str "request"), action := some (Json.str m.Action),
        payload := m.Payload, source := some (Json.str m.Source),
        request_id := some (Json.str m.RequestID),
        session_id := encodeOmitemptyString m.SessionID }
  | .response m =>
      { type := some (Json.str "response"), action := some (Json.str m.Action),
        payload := m.Payload, source := some (Json.str m.Source),
        session_id := encodeOmitemptyString m.SessionID,
        reply_to := some (Json.str m.ReplyTo) }
  | .error m =>
      { type := some (Json.str "error"), action := some (Json.str m.Action),
        source := some (Json.str m.Source),
        session_id := encodeOmitemptyString m.SessionID,
        error := some (encodeErrorResponse m.Error),
        reply_to := some (Json.str m.ReplyTo) }
  | .event m =>
      { type := some (Json.str "event"), action := some (Json.str m.Action),
        payload := m.Payload, source := some (Json.str m.Source),
        session_id := encodeOmitemptyString m.SessionID }

/-- Embedding of `client.Send` (client.go, lines 146–219): fails with the
`client connection is closed` error when the client is closed, otherwise
stamps the session id and emits the encoded frame. -/
def clientSend (closed : Bool) (msg : Message) (sessionId : Option String) :
    Except String Frame :=
  if closed then .error "client connection is closed"
  else .ok (encodeFrame (stampSession msg sessionId))

/-! ### Client lifecycle (`client.Close`, `client.Listen`) -/

/-- Observable state of a `client`: the `closed` flag, the
`sync.Once` guard for `close(c.msgCh)`, how many times the inbound
channel and the `Connection` were closed, and the buffered inbound
channel contents (capacity 500). -/
structure ClientState where
  closed : Bool
  onceDone : Bool
  chanCloseCount : Nat
  connCloseCount : Nat
  msgBuf : List Message
  deriving Repr

/-- A freshly constructed client (`NewClient`). -/
def initClientState : ClientState :=
  { closed := false, onceDone := false, chanCloseCount := 0,
    connCloseCount := 0, msgBuf := [] }

/-- Embedding of `client.Close` (client.go, lines 260–272): under the mutex, return
early when already closed; otherwise set the flag, close the inbound
channel through the `sync.Once`, and close the connection. -/
def closeClient (s : ClientState) : ClientState :=
  if s.closed then s
  else
    let s1 : ClientState := { s with closed := true }
    let s2 : ClientState :=
      if s1.onceDone then s1
      else { s1 with onceDone := true, chanCloseCount := s1.chanCloseCount + 1 }
    { s2 with connCloseCount := s2.connCloseCount + 1 }

/-- What `client.Listen` can observe in one loop iteration: a frame
from the transport's read channel, that channel closing, or the context
being cancelled. -/
inductive ListenEvent where
  | frame (f : Frame) : ListenEvent
  | chanClosed : ListenEvent
  | ctxDone : ListenEvent

/-- Embedding of `client.Listen` (client.go, lines 81–138) run over a schedule of
events.  `none` means the loop is still blocked waiting for the next
event; `some (s, e)` means it returned with final client state `s` and
Go return value `e` (`none` = `nil`).  A parse failure logs and
continues; a parsed message is forwarded onto the inbound channel when
the client is open, and dropped when the 500-slot buffer is full. -/
def listenRun (s : ClientState) : List ListenEvent → Option (ClientState × Option String)
  | [] => none
  | ListenEvent.chanClosed :: _ => some (closeClient s, none)
  | ListenEvent.ctxDone :: _ => some (closeClient s, none)
  | ListenEvent.frame f :: rest =>
      match UnmarshalMessage f with
      | .error _ => listenRun s rest
      | .ok m =>
          if s.closed then listenRun s rest
          else if s.msgBuf.length < 500 then
            listenRun { s with msgBuf := s.msgBuf ++ [m] } rest
          else listenRun s rest

/-! ## Queued resend layer (`queued_client.go`)

Durations and timestamps are modelled as `Nat` (Go's `time.Time` /
`time.Duration`; `now.Sub(ts)` becomes truncated subtraction, which
agrees with Go for the monotone clocks in play). -/

/-- Embedding of `QueueConfig` (queued_client.go, lines 23–31). -/
structure QueueConfig where
  MaxQueueSize : Nat
  MaxMessageAge : Nat
  MaxCriticalAge : Nat
  MaxRetries : Nat
  MaxCriticalRetries : Nat
  deriving Repr

/-- Embedding of `DefaultQueueConfig` (queued_client.go, lines 34–44); durations in
seconds. -/
def DefaultQueueConfig : QueueConfig :=
  { MaxQueueSize := 100, MaxMessageAge := 30, MaxCriticalAge := 60,
    MaxRetries := 3, MaxCriticalRetries := 10 }

/-- Embedding of `QueuedMessage` (queued_client.go, lines 13–20). -/
structure QueuedMessage where
  Type' : String
  Message : Message
  ChannelID : Option String
  Timestamp : Nat
  Retries : Nat
  Critical : Bool
  deriving Repr

/-- Embedding of `isCriticalMessage` (queued_client.go, lines 269–283): only event,
request and response messages are inspected; everything else (including
`ErrorMessage`) falls through to `false`. -/
def isCriticalMessage : Message → Bool
  | .event m => m.Action.startsWith "webrtc.session"
  | .request m => m.Action.startsWith "webrtc.session"
  | .response m => m.Action.startsWith "webrtc.session"
  | .error _ => false

/-- The `msgType` switch in `QueuedClient.Send` (queued_client.go,
lines 315–325). -/
def messageTypeName : Message → String
  | .event _ => "event"
  | .request _ => "request"
  | .response _ => "response"
  | .error _ => "error"

/-- Remove the first (oldest) non-critical entry, the
`for i, msg := range qc.queue` loop of `queueMessage`; `none` when every
entry is critical. -/
def removeOldestNonCritical : List QueuedMessage → Option (List QueuedMessage)
  | [] => none
  | m :: rest =>
      if m.Critical then (removeOldestNonCritical rest).map (m :: ·)
      else some rest

/-- Embedding of `QueuedClient.queueMessage` (queued_client.go, lines 227–266): when
the queue is at capacity, displace the oldest non-critical entry, or the
oldest entry outright when all are critical; then append the new entry
with `Timestamp = now` and `Retries = 0`. -/
def queueMessage (maxQueueSize : Nat) (q : List QueuedMessage)
    (msgType : String) (message : Message) (channelID : Option String)
    (critical : Bool) (now : Nat) : List QueuedMessage :=
  let q :=
    if maxQueueSize ≤ q.length then
      match removeOldestNonCritical q with
      | some q' => q'
      | none =>
          if maxQueueSize ≤ q.length then q.drop 1 else q
    else q
  q ++ [{ Type' := msgType, Message := message, ChannelID := channelID,
          Timestamp := now, Retries := 0, Critical := critical }]

/-- Does `pat` occur as a contiguous sublist of `s`? -/
def charsContain (pat : List Char) : List Char → Bool
  | [] => pat.isEmpty
  | c :: rest => pat.isPrefixOf (c :: rest) || charsContain pat rest

/-- Embedding of `strings.Contains(errStr, pat)`. -/
def containsSubstr (errStr pat : String) : Bool :=
  charsContain pat.toList errStr.toList

/-- The connection-error test of `QueuedClient.Send` (queued_client.go,
lines 310–312): the wrapped client is closed, or the error text
mentions a closed / lost connection. -/
def isQueueableError (clientClosed : Bool) (errStr : String) : Bool :=
  clientClosed || containsSubstr errStr "connection is closed"
    || containsSubstr errStr "connection lost"

/-- Embedding of `QueuedClient.Send` (queued_client.go, lines 303–343).
`underlying` is the result of the wrapped `client.Send` (`none` = nil
error), `clientClosed` the value of `qc.client.IsClosed()` at the check.
Returns the queue after the call and the Go return value. -/
def queuedClientSend (cfg : QueueConfig) (q : List QueuedMessage)
    (msg : Message) (sessionId : Option String)
    (underlying : Option String) (clientClosed : Bool) (now : Nat) :
    List QueuedMessage × Option String :=
  match underlying with
  | none => (q, none)
  | some err =>
      if isQueueableError clientClosed err then
        let critical := isCriticalMessage msg
        let q' := queueMessage cfg.MaxQueueSize q (messageTypeName msg) msg
          sessionId critical now
        if critical then (q', none) else (q', some err)
      else (q, some err)

/-- Retry budget of a queued entry: `maxRetries` selection inside
`flushQueue` (queued_client.go, lines 193–196). -/
def retryBudget (cfg : QueueConfig) (m : QueuedMessage) : Nat :=
  if m.Critical then cfg.MaxCriticalRetries else cfg.MaxRetries

/-- Age limit of a queued entry: `maxAge` selection inside `flushQueue`
(queued_client.go, lines 153–156). -/
def ageLimit (cfg : QueueConfig) (m : QueuedMessage) : Nat :=
  if m.Critical then cfg.MaxCriticalAge else cfg.MaxMessageAge

/-- The per-entry body of the `flushQueue` loop (queued_client.go,
lines 150–213): drop when expired; attempt the send (outcome given by
the `sendOk` oracle); on success drop (delivered); on failure increment
`Retries` and keep the entry only while the incremented count is below
the budget.  `none` = the entry leaves the queue. -/
def flushEntry (cfg : QueueConfig) (now : Nat)
    (sendOk : QueuedMessage → Bool) (m : QueuedMessage) :
    Option QueuedMessage :=
  if ageLimit cfg m < now - m.Timestamp then none
  else if sendOk m then none
  else if m.Retries + 1 < retryBudget cfg m then
    some { m with Retries := m.Retries + 1 }
  else none

/-- Embedding of `QueuedClient.flushQueue` (queued_client.go, lines 132–224): no-op
when the queue is empty or the wrapped client is closed; otherwise the
queue is replaced by the retained entries, in order. -/
def flushQueue (cfg : QueueConfig) (q : List QueuedMessage) (now : Nat)
    (sendOk : QueuedMessage → Bool) (clientClosed : Bool) :
    List QueuedMessage :=
  if q.isEmpty then q
  else if clientClosed then q
  else q.filterMap (flushEntry cfg now sendOk)

/-- One flusher tick as seen by a single tracked entry:
`clientClosed` at the tick, the clock, and the send oracle. -/
structure FlushTick where
  clientClosed : Bool
  now : Nat
  sendOk : QueuedMessage → Bool

/-- Number of send attempts `flushQueue` makes on one tracked entry over
a schedule of ticks, following `flushEntry` exactly: a closed tick
attempts nothing and keeps the entry; an expired entry is dropped
without an attempt; otherwise the tick attempts the send once and the
entry continues as `flushEntry` dictates. -/
def countAttempts (cfg : QueueConfig) : List FlushTick → QueuedMessage → Nat
  | [], _ => 0
  | t :: ts, m =>
      if t.clientClosed then countAttempts cfg ts m
      else if ageLimit cfg m < t.now - m.Timestamp then 0
      else
        1 + match flushEntry cfg t.now t.sendOk m with
            | some m' => countAttempts cfg ts m'
            | none => 0

/-! ## Router (`router.go`)

For the middleware-ordering claims only the invocation order matters,
so an `ActionHandler` is modelled by its call trace — the list of
middleware / handler labels in the order they run when the composed
handler is invoked.  `Middleware` stays a genuine function
`ActionHandler → ActionHandler`, exactly as in Go. -/

/-- The observable behaviour of an `ActionHandler`: the sequence of
labels that run, outermost first, when it is invoked. -/
abbrev HTrace := List String

/-- Embedding of `Middleware` (router.go, line 15). -/
abbrev MiddlewareT := HTrace → HTrace

/-- A labelled pass-through middleware: records its label, then calls
the wrapped handler (the generic shape of the `M`, `I` middleware of
the spec's scenario). -/
def labelMw (name : String) : MiddlewareT := fun h => name :: h

/-- Embedding of `Handler` (router.go, lines 18–22): registered routes and the global
middleware stack.  The routes map is an association list where the most
recent registration for an action shadows older ones, matching Go map
assignment. -/
structure HandlerState where
  routes : List (String × HTrace)
  middlewares : List MiddlewareT

/-- Embedding of `NewHandler` (router.go, lines 25–31). -/
def NewHandler : HandlerState := { routes := [], middlewares := [] }

/-- Embedding of `Handler.Use` (router.go, lines 34–36): appends to the global
stack. -/
def Use (h : HandlerState) (mw : MiddlewareT) : HandlerState :=
  { h with middlewares := h.middlewares ++ [mw] }

/-- The composition performed by `Handler.Handle` (router.go, lines
61–73): inline middleware applied left to right (`handler = mw(handler)`
over `components[:len-1]`), then the global stack in registration order
by the same update. -/
def composeRoute (globals inline : List MiddlewareT) (handler : HTrace) : HTrace :=
  (globals.foldl (fun acc mw => mw acc) (inline.foldl (fun acc mw => mw acc) handler))

/-- Embedding of `Handler.Handle` (router.go, lines 42–76), for a registration whose
final component is already an `ActionHandler` and whose preceding
components are middleware (the non-panicking path). -/
def Handle (h : HandlerState) (action : String) (inline : List MiddlewareT)
    (handler : HTrace) : HandlerState :=
  { h with routes := (action, composeRoute h.middlewares inline handler) :: h.routes }

/-- Embedding of `Handler.GetHandler` (router.go, lines 79–82): the dispatch lookup
used for an inbound request's action. -/
def GetHandler (h : HandlerState) (action : String) : Option HTrace :=
  (h.routes.find? (fun kv => kv.fst == action)).map Prod.snd

/-! ## Claim-statement predicates and concrete inputs -/

/-- The well-formedness predicate asserted by spec §3 / P1 over parsed
envelopes: `action` and `source` non-empty on every kind, plus the
kind-specific identifier fields non-empty. -/
def requiredFieldsNonEmpty : Message → Bool
  | .request m => !(m.Action == "") && !(m.Source == "") && !(m.RequestID == "")
  | .response m => !(m.Action == "") && !(m.Source == "") && !(m.ReplyTo == "")
  | .error m => !(m.Action == "") && !(m.Source == "") && !(m.ReplyTo == "")
  | .event m => !(m.Action == "") && !(m.Source == "")

/-- Is the value a present JSON `null`?  (The one optional-field value
that does not survive a marshal/unmarshal round trip: Go encodes a nil
interface by omission but a present `null` decodes back to nil.) -/
def isSomeNull : Option Json → Bool
  | some Json.null => true
  | _ => false

/-- Round-trip side condition: the opaque optional fields (`payload`, or
`details` on an error) are not a present JSON `null`. -/
def wfOptionalFields : Message → Bool
  | .request m => !isSomeNull m.Payload
  | .response m => !isSomeNull m.Payload
  | .event m => !isSomeNull m.Payload
  | .error m => !isSomeNull m.Error.Details

/-- An event envelope with the given action, as used in the capacity
scenario of spec §8.5. -/
def scenarioMsg (a : String) : Message :=
  .event { Action := a, Source := "device" }

/-- One enqueue attempt of the capacity scenario: `max_queue_size = 3`. -/
def scenarioEnqueue (q : List QueuedMessage) (name : String) (critical : Bool)
    (now : Nat) : List QueuedMessage :=
  queueMessage 3 q "event" (scenarioMsg name) none critical now

/-- The five enqueue attempts `[N1, C1, N2, N3, C2]` of the scenario. -/
def scenarioFinalQueue : List QueuedMessage :=
  scenarioEnqueue (scenarioEnqueue (scenarioEnqueue (scenarioEnqueue
    (scenarioEnqueue [] "N1" false 1) "C1" true 2) "N2" false 3)
    "N3" false 4) "C2" true 5

/-- A queued entry used to instantiate the retry-bound theorem. -/
def witnessEntry : QueuedMessage :=
  { Type' := "event", Message := scenarioMsg "camera.list", ChannelID := none,
    Timestamp := 0, Retries := 0, Critical := false }

/-- A flusher schedule on which every send attempt fails. -/
def witnessTicks : List FlushTick :=
  [{ clientClosed := false, now := 1, sendOk := fun _ => false },
   { clientClosed := false, now := 2, sendOk := fun _ => false },
   { clientClosed := false, now := 3, sendOk := fun _ => false },
   { clientClosed := false, now := 4, sendOk := fun _ => false }]

/-- A frame carrying only `type` and `action`: no `source` at all. -/
def sourcelessFrame : Frame :=
  { type := some (Json.str "event"), action := some (Json.str "camera.list") }

/-- A frame whose `type` is an unknown string and whose `action` is
absent. -/
def bogusTypeFrame : Frame := { type := some (Json.str "bogus") }

/-- An unknown-`type` frame that does carry an `action`. -/
def bogusTypeFrameWithAction : Frame :=
  { type := some (Json.str "bogus"), action := some (Json.str "camera.list") }

/-- The router state of the ordering counterexample: two globals
`M1`, `M2` registered in that order, and a route with two inline
middlewares `I1`, `I2` in source order. -/
def orderStateTwo : HandlerState :=
  Handle (Use (Use NewHandler (labelMw "M1")) (labelMw "M2")) "a.b"
    [labelMw "I1", labelMw "I2"] ["H"]

/-- The router state of the spec's own scenario: one global `M`, one
inline `I`, handler `H`. -/
def orderStateOne : HandlerState :=
  Handle (Use NewHandler (labelMw "M")) "a.b" [labelMw "I"] ["H"]

/-- A concrete request envelope exercising the round trip, with a
payload and a session id. -/
def roundtripRequest : Message :=
  .request { Action := "camera.list", Payload := some (Json.obj [("id", Json.num 7)]),
             Source := "api", RequestID := "r-1", SessionID := "sess-9" }

/-- A concrete error envelope exercising the round trip, with omitted
`details` and omitted session id. -/
def roundtripError : Message :=
  .error { Action := "camera.switch", Source := "device",
           Error := { Code := "NOT_FOUND", Message := "no such camera",
                      Source := "device", Level := "ERROR" },
           ReplyTo := "r-1" }

/-! ## Theorems -/

/-- Registering globals through `Use` accumulates them in order and
leaves the routes untouched. -/
theorem foldl_Use_middlewares (names : List String) :
    ∀ hs : HandlerState,
      (names.foldl (fun h n => Use h (labelMw n)) hs).middlewares =
        hs.middlewares ++ names.map labelMw ∧
      (names.foldl (fun h n => Use h (labelMw n)) hs).routes = hs.routes := by
  induction names with
  | nil => intro hs; simp
  | cons n rest ih =>
      intro hs
      have h := ih (Use hs (labelMw n))
      simpa [Use, List.append_assoc] using h

/-- Successively wrapping a handler with labelled middleware, left to
right, puts the labels in reverse source order. -/
theorem foldl_labelMw (names : List String) :
    ∀ t : HTrace,
      (names.map labelMw).foldl (fun acc mw => mw acc) t = names.reverse ++ t := by
  induction names with
  | nil => intro t; simp
  | cons n rest ih =>
      intro t
      simp only [List.map_cons, List.foldl_cons, List.reverse_cons]
      rw [ih (labelMw n t)]
      simp [labelMw]

/-- Claim C3: `queueMessage` at capacity removes the oldest non-critical
entry when one exists, otherwise the oldest entry outright, and always
appends the new entry with `Timestamp = now` and `Retries = 0`; in the
spec's scenario with `max_queue_size = 3` and enqueue order
`[N1, C1, N2, N3, C2]` the final queue is `[C1, N3, C2]`. -/
theorem queueMessage_capacity_policy :
    (∀ (maxQ : Nat) (q : List QueuedMessage) (t : String) (m : Message)
        (ch : Option String) (crit : Bool) (now : Nat),
      queueMessage maxQ q t m ch crit now =
        (if q.length < maxQ then q
         else
           match removeOldestNonCritical q with
           | some q' => q'
           | none => q.drop 1) ++
        [{ Type' := t, Message := m, ChannelID := ch, Timestamp := now,
           Retries := 0, Critical := crit }]) ∧
    scenarioFinalQueue =
      [{ Type' := "event", Message := scenarioMsg "C1", ChannelID := none,
         Timestamp := 2, Retries := 0, Critical := true },
       { Type' := "event", Message := scenarioMsg "N3", ChannelID := none,
         Timestamp := 4, Retries := 0, Critical := false },
       { Type' := "event", Message := scenarioMsg "C2", ChannelID := none,
         Timestamp := 5, Retries := 0, Critical := true }] := by
  constructor
  · intro maxQ q t m ch crit now
    unfold queueMessage
    by_cases h : maxQ ≤ q.length
    · rw [if_pos h, if_neg (Nat.not_lt.mpr h)]
      cases hr : removeOldestNonCritical q
      · rw [if_pos h]
      · rfl
    · rw [if_neg h, if_pos (Nat.lt_of_not_le h)]
  · rfl


/-- Claim C4: `QueuedClient.Send` queues the envelope exactly when the
underlying send failed and the error is a closed/lost-connection one, in
which case it returns nil for a critical message and the original error
otherwise; on any other send error the queue is untouched and the error
is returned. -/
theorem queuedSend_connection_error_policy :
    ∀ (cfg : QueueConfig) (q : List QueuedMessage) (msg : Message)
      (sid : Option String) (err : String) (closed : Bool) (now : Nat),
      queuedClientSend cfg q msg sid none closed now = (q, none) ∧
      queuedClientSend cfg q msg sid (some err) closed now =
        (if isQueueableError closed err then
           (queueMessage cfg.MaxQueueSize q (messageTypeName msg) msg sid
              (isCriticalMessage msg) now,
            if isCriticalMessage msg then none else some err)
         else (q, some err)) := by
  intro cfg q msg sid err closed now
  refine ⟨rfl, ?_⟩
  simp only [queuedClientSend]
  cases hq : isQueueableError closed err
  · rfl
  · cases hc : isCriticalMessage msg <;> rfl

/-- Claim C9: an `ErrorMessage` is never classified critical (whatever its
action), so `QueuedClient.Send` always hands back the underlying result
for it, any queue entry it creates carries `Critical = false`, and a
non-critical entry gets the non-critical retry budget and age limit. -/
theorem errorMessage_never_critical :
    (∀ e : ErrorMessage, isCriticalMessage (.error e) = false) ∧
    (∀ (cfg : QueueConfig) (q : List QueuedMessage) (e : ErrorMessage)
        (sid : Option String) (u : Option String) (closed : Bool) (now : Nat),
      (queuedClientSend cfg q (.error e) sid u closed now).2 = u ∧
      ((queuedClientSend cfg q (.error e) sid u closed now).1 = q ∨
       (queuedClientSend cfg q (.error e) sid u closed now).1 =
         queueMessage cfg.MaxQueueSize q "error" (.error e) sid false now)) ∧
    (∀ (cfg : QueueConfig) (t : String) (msg : Message) (ch : Option String)
        (ts r : Nat),
      retryBudget cfg ⟨t, msg, ch, ts, r, false⟩ = cfg.MaxRetries ∧
      ageLimit cfg ⟨t, msg, ch, ts, r, false⟩ = cfg.MaxMessageAge) := by
  refine ⟨fun e => rfl, ?_, fun cfg t msg ch ts r => ⟨rfl, rfl⟩⟩
  intro cfg q e sid u closed now
  cases u with
  | none => exact ⟨rfl, Or.inl rfl⟩
  | some err =>
      simp only [queuedClientSend]
      cases hq : isQueueableError closed err
      · exact ⟨rfl, Or.inl rfl⟩
      · exact ⟨rfl, Or.inr rfl⟩

/-- Claim C8: `client.Close` is idempotent — any number of calls leaves
the same state as one call, the inbound channel is closed exactly once,
`IsClosed` is true from the first call on, and every `Send` on the
closed client returns the closed-connection error. -/
theorem close_idempotent :
    ∀ n : Nat,
      closeClient^[n + 1] initClientState = closeClient initClientState ∧
      (closeClient^[n + 1] initClientState).chanCloseCount = 1 ∧
      (closeClient^[n + 1] initClientState).closed = true ∧
      ∀ (msg : Message) (sid : Option String),
        clientSend (closeClient^[n + 1] initClientState).closed msg sid =
          .error "client connection is closed" := by
  have key : ∀ n : Nat, closeClient^[n + 1] initClientState = closeClient initClientState := by
    intro n
    induction n with
    | zero => rfl
    | succ k ih =>
        rw [Function.iterate_succ_apply', ih]
        rfl
  intro n
  refine ⟨key n, ?_, ?_, ?_⟩
  · rw [key n]; rfl
  · rw [key n]; rfl
  · intro msg sid; rw [key n]; rfl

/-- Claim C2 (counterexample): with globals `M1`, `M2` registered in that
order and inline middleware `I1`, `I2` in source order, the composed
handler stored by `Handle` runs `M2, M1, I2, I1, H` — not the
`M1, M2, I1, I2, H` order the claim's "outermost first in source /
registration order" reading asserts. -/
theorem middleware_order_counterexample :
    GetHandler orderStateTwo "a.b" = some ["M2", "M1", "I2", "I1", "H"] ∧
    (["M2", "M1", "I2", "I1", "H"] : List String) ≠ ["M1", "M2", "I1", "I2", "H"] :=
  ⟨rfl, by decide⟩

/-- Claim C2 (amended): `Handle` wraps the final handler with the inline
middleware left to right and then the global stack in registration
order, each by `handler = mw(handler)`, so the *last* inline middleware
is outermost among the inline ones and the *last-registered* global is
outermost overall; with a single global `M` and a single inline `I` the
dispatched call order is still `M(I(H))`. -/
theorem middleware_order :
    (∀ (gnames inames : List String) (action : String) (base : HTrace),
      GetHandler (Handle (gnames.foldl (fun h n => Use h (labelMw n)) NewHandler)
          action (inames.map labelMw) base) action =
        some (gnames.reverse ++ (inames.reverse ++ base))) ∧
    GetHandler orderStateOne "a.b" = some ["M", "I", "H"] := by
  refine ⟨?_, rfl⟩
  intro gnames inames action base
  have hmw : (List.foldl (fun h n => Use h (labelMw n)) NewHandler gnames).middlewares =
      List.map labelMw gnames := by
    simpa [NewHandler] using (foldl_Use_middlewares gnames NewHandler).1
  simp only [GetHandler, Handle, List.find?, beq_self_eq_true, Option.map_some, composeRoute]
  rw [foldl_labelMw inames base, hmw, foldl_labelMw gnames (inames.reverse ++ base)]
  rfl

/-- Claim C10: every terminating run of `client.Listen` — whether it ends
because the transport's read channel closed or because the context was
cancelled — closes the client and returns a nil error. -/
theorem listen_returns_nil :
    ∀ (evs : List ListenEvent) (s : ClientState) (out : ClientState × Option String),
      listenRun s evs = some out → out.2 = none := by
  intro evs
  induction evs with
  | nil => intro s out h; exact Option.noConfusion h
  | cons e rest ih =>
      intro s out h
      cases e with
      | chanClosed =>
          rw [show out = (closeClient s, none) from (Option.some.inj h).symm]
      | ctxDone =>
          rw [show out = (closeClient s, none) from (Option.some.inj h).symm]
      | frame f =>
          simp only [listenRun] at h
          split at h
          · exact ih _ _ h
          · split at h
            · exact ih _ _ h
            · split at h
              · exact ih _ _ h
              · exact ih _ _ h

/-- Claim C10 (witness): a run ending with the read channel closing. -/
theorem listen_returns_nil_witness :
    ((closeClient initClientState, (none : Option String))).2 = none :=
  listen_returns_nil [ListenEvent.chanClosed] initClientState
    (closeClient initClientState, none) rfl

/-- Claim C1 (counterexample): a frame with no `source` key at all parses
successfully, so the claim that every parsed envelope has a non-empty
`source` is false. -/
theorem parse_wellformedness_counterexample :
    ¬ (∀ (f : Frame) (m : Message), UnmarshalMessage f = .ok m →
        requiredFieldsNonEmpty m = true) := by
  intro h
  exact absurd
    (h sourcelessFrame (.event { Action := "camera.list", Source := "" }) rfl)
    (by decide)

/-- Claim C1 (amended): on parse success the frame's `type` was the
matching kind string, `action` was present (non-null), a request's
`request_id` was present, a response's or error's `reply_to` was
present and an error's `error` value was present — presence only;
emptiness is not checked, and `source` is not checked at all. -/
theorem parse_success_field_presence :
    ∀ (f : Frame) (m : Message), UnmarshalMessage f = .ok m →
      isNilJson f.action = false ∧
      (match m with
       | .request _ => f.type = some (Json.str "request") ∧ isNilJson f.request_id = false
       | .response _ => f.type = some (Json.str "response") ∧ isNilJson f.reply_to = false
       | .error _ => f.type = some (Json.str "error") ∧ isNilJson f.reply_to = false ∧
           isNilJson f.error = false
       | .event _ => f.type = some (Json.str "event")) := by
  intro f m h
  unfold UnmarshalMessage at h
  split at h
  case h_2 => exact Except.noConfusion h
  case h_1 mt hft =>
    split at h
    case isTrue => exact Except.noConfusion h
    case isFalse ha =>
      refine ⟨Bool.not_eq_true _ |>.mp ha, ?_⟩
      split at h
      · split at h
        · exact Except.noConfusion h
        case isFalse hr =>
          cases hd : decodeRequestMessage f with
          | error e => rw [hd] at h; exact Except.noConfusion h
          | ok r =>
              rw [hd] at h
              rw [show m = Message.request r from (Except.ok.inj h).symm]
              exact ⟨hft, Bool.not_eq_true _ |>.mp hr⟩
      · split at h
        · exact Except.noConfusion h
        case isFalse hr =>
          cases hd : decodeResponseMessage f with
          | error e => rw [hd] at h; exact Except.noConfusion h
          | ok r =>
              rw [hd] at h
              rw [show m = Message.response r from (Except.ok.inj h).symm]
              exact ⟨hft, Bool.not_eq_true _ |>.mp hr⟩
      · split at h
        · exact Except.noConfusion h
        case isFalse hr =>
          split at h
          · exact Except.noConfusion h
          case isFalse he =>
            cases hd : decodeErrorMessage f with
            | error e => rw [hd] at h; exact Except.noConfusion h
            | ok r =>
                rw [hd] at h
                rw [show m = Message.error r from (Except.ok.inj h).symm]
                exact ⟨hft, Bool.not_eq_true _ |>.mp hr, Bool.not_eq_true _ |>.mp he⟩
      · cases hd : decodeEventMessage f with
        | error e => rw [hd] at h; exact Except.noConfusion h
        | ok r =>
            rw [hd] at h
            rw [show m = Message.event r from (Except.ok.inj h).symm]
            exact hft
      · exact Except.noConfusion h

/-- Claim C1 (witness): the sourceless event frame instantiates the
amended presence theorem. -/
theorem parse_success_field_presence_witness :
    isNilJson sourcelessFrame.action = false ∧
    sourcelessFrame.type = some (Json.str "event") :=
  have h := parse_success_field_presence sourcelessFrame
    (.event { Action := "camera.list", Source := "" }) rfl
  ⟨h.1, h.2⟩

/-- Claim C6 (counterexample): the frame `{"type": "bogus"}` has a string
`type` outside the four kinds, yet the parser reports `MissingAction`,
not the invalid/unknown-type error — so the "regardless of which other
fields are present or absent" part of the claim is false. -/
theorem unknown_type_counterexample :
    bogusTypeFrame.type = some (Json.str "bogus") ∧
    ("bogus" ≠ "request" ∧ "bogus" ≠ "response" ∧ "bogus" ≠ "error" ∧
      "bogus" ≠ "event") ∧
    UnmarshalMessage bogusTypeFrame = .error .missingAction ∧
    UnmarshalMessage bogusTypeFrame ≠ .error (.unknownType "bogus") := by
  refine ⟨rfl, by decide, rfl, ?_⟩
  intro h
  exact absurd (Except.error.inj h) (by decide)

/-- Claim C6 (amended): a frame whose `type` is a string outside the four
kinds is rejected with the unknown-type error, provided its `action` is
present (non-null); with `action` absent, `MissingAction` preempts. -/
theorem unknown_type_rejected :
    ∀ (f : Frame) (t : String), f.type = some (Json.str t) →
      t ≠ "request" → t ≠ "response" → t ≠ "error" → t ≠ "event" →
      isNilJson f.action = false →
      UnmarshalMessage f = .error (.unknownType t) := by
  intro f t hft h1 h2 h3 h4 ha
  unfold UnmarshalMessage
  rw [hft]
  simp only [ha, Bool.false_eq_true, if_false]

/-- Claim C6 (witness): an unknown-type frame that does carry an action. -/
theorem unknown_type_rejected_witness :
    UnmarshalMessage bogusTypeFrameWithAction = .error (.unknownType "bogus") :=
  unknown_type_rejected bogusTypeFrameWithAction "bogus" rfl (by decide) (by decide)
    (by decide) (by decide) rfl

/-- A queued entry whose retry counter is still below its budget is
attempted at most `budget − Retries` more times over any schedule of
flusher ticks. -/
theorem countAttempts_le (cfg : QueueConfig) (ts : List FlushTick) :
    ∀ m : QueuedMessage, m.Retries < retryBudget cfg m →
      countAttempts cfg ts m ≤ retryBudget cfg m - m.Retries := by
  induction ts with
  | nil => intro m hm; simp [countAttempts]
  | cons t rest ih =>
      intro m hm
      unfold countAttempts
      by_cases hc : t.clientClosed = true
      · rw [if_pos hc]
        exact ih m hm
      · rw [if_neg hc]
        by_cases hexp : ageLimit cfg m < t.now - m.Timestamp
        · rw [if_pos hexp]
          omega
        · rw [if_neg hexp]
          unfold flushEntry
          rw [if_neg hexp]
          by_cases hok : t.sendOk m = true
          · rw [if_pos hok]
            show 1 + 0 ≤ retryBudget cfg m - m.Retries
            omega
          · rw [if_neg hok]
            by_cases hr : m.Retries + 1 < retryBudget cfg m
            · rw [if_pos hr]
              have h2 : countAttempts cfg rest { m with Retries := m.Retries + 1 } ≤
                  retryBudget cfg m - (m.Retries + 1) :=
                ih { m with Retries := m.Retries + 1 } hr
              show 1 + countAttempts cfg rest { m with Retries := m.Retries + 1 } ≤
                retryBudget cfg m - m.Retries
              omega
            · rw [if_neg hr]
              show 1 + 0 ≤ retryBudget cfg m - m.Retries
              omega

/-- Claim C5: a failed flush attempt increments the entry's retry counter
and retains the entry only while the incremented counter is below the
budget (`max_critical_retries` for critical entries, `max_retries`
otherwise); `flushQueue` applies exactly that step to every entry; and
an entry entering the queue with `Retries = 0` is attempted at most
budget-many times over any schedule of flushes. -/
theorem flush_retry_bound :
    (∀ (cfg : QueueConfig) (now : Nat) (sendOk : QueuedMessage → Bool)
        (m : QueuedMessage),
      ¬ ageLimit cfg m < now - m.Timestamp →
      sendOk m = false →
      flushEntry cfg now sendOk m =
        (if m.Retries + 1 < retryBudget cfg m
         then some { m with Retries := m.Retries + 1 } else none)) ∧
    (∀ (cfg : QueueConfig) (q : List QueuedMessage) (now : Nat)
        (sendOk : QueuedMessage → Bool),
      flushQueue cfg q now sendOk false = q.filterMap (flushEntry cfg now sendOk)) ∧
    (∀ (cfg : QueueConfig) (ts : List FlushTick) (m : QueuedMessage),
      m.Retries = 0 → 0 < retryBudget cfg m →
      countAttempts cfg ts m ≤ retryBudget cfg m) := by
  refine ⟨?_, ?_, ?_⟩
  · intro cfg now sendOk m hexp hok
    unfold flushEntry
    rw [if_neg hexp, if_neg (by rw [hok]; exact Bool.false_ne_true)]
  · intro cfg q now sendOk
    cases q with
    | nil => rfl
    | cons a l =>
        unfold flushQueue
        rw [if_neg (by simp), if_neg Bool.false_ne_true]
  · intro cfg ts m h0 hb
    have := countAttempts_le cfg ts m (by omega)
    omega

/-- Claim C5 (witness): a fresh non-critical entry under the default
config, on a schedule of four always-failing ticks, is attempted at
most its budget of 3 times. -/
theorem flush_retry_bound_witness :
    witnessEntry.Retries = 0 ∧ 0 < retryBudget DefaultQueueConfig witnessEntry ∧
    countAttempts DefaultQueueConfig witnessTicks witnessEntry ≤
      retryBudget DefaultQueueConfig witnessEntry :=
  ⟨rfl, by decide,
    flush_retry_bound.2.2 DefaultQueueConfig witnessTicks witnessEntry rfl (by decide)⟩

/-- Claim C7: a programmatically constructed envelope of any of the four
kinds, encoded by the client's `Send` path (open client, no session-id
override) and parsed back with `UnmarshalMessage`, comes back field-wise
identical — omitted optional fields stay omitted.  The side condition
`wfOptionalFields` only rules out a payload / details value that *is*
the JSON literal `null`, which Go cannot distinguish from an omitted
field after decode. -/
theorem send_parse_roundtrip :
    ∀ m : Message, wfOptionalFields m = true →
      clientSend false m none = .ok (encodeFrame m) ∧
      UnmarshalMessage (encodeFrame m) = .ok m := by
  intro m hwf
  refine ⟨rfl, ?_⟩
  cases m with
  | request r =>
      obtain ⟨ra, rp, rs, rid, rsess⟩ := r
      simp only [wfOptionalFields] at hwf
      by_cases hs : rsess = ""
      · subst hs
        match rp, hwf with
        | none, _ => rfl
        | some (Json.bool b), _ => rfl
        | some (Json.num n), _ => rfl
        | some (Json.str s), _ => rfl
        | some (Json.arr xs), _ => rfl
        | some (Json.obj fs), _ => rfl
      · simp only [encodeFrame, encodeOmitemptyString, if_neg hs]
        match rp, hwf with
        | none, _ => rfl
        | some (Json.bool b), _ => rfl
        | some (Json.num n), _ => rfl
        | some (Json.str s), _ => rfl
        | some (Json.arr xs), _ => rfl
        | some (Json.obj fs), _ => rfl
  | response r =>
      obtain ⟨ra, rp, rs, rsess, rrep⟩ := r
      simp only [wfOptionalFields] at hwf
      by_cases hs : rsess = ""
      · subst hs
        match rp, hwf with
        | none, _ => rfl
        | some (Json.bool b), _ => rfl
        | some (Json.num n), _ => rfl
        | some (Json.str s), _ => rfl
        | some (Json.arr xs), _ => rfl
        | some (Json.obj fs), _ => rfl
      · simp only [encodeFrame, encodeOmitemptyString, if_neg hs]
        match rp, hwf with
        | none, _ => rfl
        | some (Json.bool b), _ => rfl
        | some (Json.num n), _ => rfl
        | some (Json.str s), _ => rfl
        | some (Json.arr xs), _ => rfl
        | some (Json.obj fs), _ => rfl
  | event r =>
      obtain ⟨ra, rp, rs, rsess⟩ := r
      simp only [wfOptionalFields] at hwf
      by_cases hs : rsess = ""
      · subst hs
        match rp, hwf with
        | none, _ => rfl
        | some (Json.bool b), _ => rfl
        | some (Json.num n), _ => rfl
        | some (Json.str s), _ => rfl
        | some (Json.arr xs), _ => rfl
        | some (Json.obj fs), _ => rfl
      · simp only [encodeFrame, encodeOmitemptyString, if_neg hs]
        match rp, hwf with
        | none, _ => rfl
        | some (Json.bool b), _ => rfl
        | some (Json.num n), _ => rfl
        | some (Json.str s), _ => rfl
        | some (Json.arr xs), _ => rfl
        | some (Json.obj fs), _ => rfl
  | error r =>
      obtain ⟨ra, rs, rsess, rerr, rrep⟩ := r
      obtain ⟨rc, rm, rsrc, rdet, rlvl⟩ := rerr
      simp only [wfOptionalFields] at hwf
      by_cases hs : rsess = ""
      · subst hs
        match rdet, hwf with
        | none, _ => rfl
        | some (Json.bool b), _ => rfl
        | some (Json.num n), _ => rfl
        | some (Json.str s), _ => rfl
        | some (Json.arr xs), _ => rfl
        | some (Json.obj fs), _ => rfl
      · simp only [encodeFrame, encodeOmitemptyString, if_neg hs]
        match rdet, hwf with
        | none, _ => rfl
        | some (Json.bool b), _ => rfl
        | some (Json.num n), _ => rfl
        | some (Json.str s), _ => rfl
        | some (Json.arr xs), _ => rfl
        | some (Json.obj fs), _ => rfl

/-- Claim C7 (witness): a concrete request with payload and session id
round-trips through encode and parse. -/
theorem send_parse_roundtrip_witness :
    wfOptionalFields roundtripRequest = true ∧
    (clientSend false roundtripRequest none = .ok (encodeFrame roundtripRequest) ∧
     UnmarshalMessage (encodeFrame roundtripRequest) = .ok roundtripRequest) :=
  ⟨rfl, send_parse_roundtrip roundtripRequest rfl⟩

end Aircast
